import Mathlib

/-!
Verification of the go-tangra-inventory control plane against its
natural-language specification.

The Go source is shallowly embedded: pure decision procedures become Lean
functions, the session registry becomes explicit state passing over a
`CommandRegistry` structure, and the SQLite-backed store becomes a list of
rows.  Machine integers (`int64`, `time.Duration`) are modelled as `Int`
with explicit two's-complement wrapping where overflow matters.
-/

namespace Inventory

/-! ## Auth gate (internal/server/interceptor.go)

`AuthInterceptor` / `AuthStreamInterceptor` validate the `x-api-secret`
(elevated) and `x-client-secret` (restricted) metadata headers.  gRPC
metadata is modelled by the first value of each of the two headers the code
reads (`md.Get(...)[0]`), or `none` when the header is absent; a request
with no metadata at all is `none` at the outer `Option`. -/

inductive AuthDecision where
  | allow
  | unauthenticated
  | permissionDenied
deriving DecidableEq, Repr

/-- The two credential headers of an incoming request (first value each). -/
structure Metadata where
  apiSecretHeader : Option String
  clientSecretHeader : Option String
deriving DecidableEq, Repr

/-- Unary RPC suffixes that x-client-secret callers may invoke. -/
def allowedClientSecretUnaryMethods : List String := ["/SubmitInventory"]

/-- Streaming RPC suffixes that x-client-secret callers may invoke. -/
def allowedClientSecretStreamMethods : List String := ["/StreamCommands"]

/-- `strings.HasSuffix(s, sfx)`. -/
def hasSuffix (s sfx : String) : Bool := sfx.data.isSuffixOf s.data

/-- The restricted branch of the interceptors: reached when the elevated
branch did not decide the call.  Mirrors the Go fall-through to
`x-client-secret`: header present and mismatching fails, matching requires
the invoked method to end with an allowlisted suffix; every other shape
fails `Unauthenticated`. -/
def clientSecretBranch (clientSecret : String) (allowlist : List String)
    (m : Metadata) (fullMethod : String) : AuthDecision :=
  if clientSecret = "" then .unauthenticated
  else
    match m.clientSecretHeader with
    | none => .unauthenticated
    | some v =>
      if v ≠ clientSecret then .unauthenticated
      else if allowlist.any (fun sfx => hasSuffix fullMethod sfx) then .allow
      else .permissionDenied

/-- The shared decision procedure of `AuthInterceptor` and
`AuthStreamInterceptor`, parameterised by the allowlist.  Both secrets
empty is a pass-through before the metadata is even consulted; the
elevated header, when the elevated secret is configured and the header is
present, decides the call with no fall-through. -/
def authGate (clientSecret apiSecret : String) (allowlist : List String)
    (md : Option Metadata) (fullMethod : String) : AuthDecision :=
  if clientSecret = "" ∧ apiSecret = "" then .allow
  else
    match md with
    | none => .unauthenticated
    | some m =>
      if apiSecret = "" then clientSecretBranch clientSecret allowlist m fullMethod
      else
        match m.apiSecretHeader with
        | some v => if v = apiSecret then .allow else .unauthenticated
        | none => clientSecretBranch clientSecret allowlist m fullMethod

/-- `AuthInterceptor(clientSecret, apiSecret)` applied to one unary call. -/
def AuthInterceptor (clientSecret apiSecret : String)
    (md : Option Metadata) (fullMethod : String) : AuthDecision :=
  authGate clientSecret apiSecret allowedClientSecretUnaryMethods md fullMethod

/-- `AuthStreamInterceptor(clientSecret, apiSecret)` applied at stream-open. -/
def AuthStreamInterceptor (clientSecret apiSecret : String)
    (md : Option Metadata) (fullMethod : String) : AuthDecision :=
  authGate clientSecret apiSecret allowedClientSecretStreamMethods md fullMethod

/-! ## Session registry (internal/server/middleware.go)

`CommandRegistry` keeps a map from client ID to `connectedAgent`; each
agent holds a buffered Go channel of `InventoryCommand`s.  Channels are
modelled in a side store indexed by a fresh `Nat`: a channel is its
buffered contents plus a closed flag, together with the ghost field
`owner` recording which client ID the `Register` call that created it was
for (Go does not store this; it is bookkeeping for stating the
one-live-session invariant).  `connectedAt` timestamps play no role in the
verified properties and are omitted. -/

inductive InventoryCommandType where
  | refresh
deriving DecidableEq, Repr

structure InventoryCommand where
  commandId : String
  commandType : InventoryCommandType
deriving DecidableEq, Repr

def commandChannelBufferSize : Nat := 16

/-- A buffered Go channel of commands, plus the ghost `owner`. -/
structure Chan where
  buf : List InventoryCommand
  closed : Bool
  owner : String
deriving DecidableEq, Repr

/-- `connectedAgent`: the channel handle and the agent's reported version. -/
structure connectedAgent where
  ch : Nat
  version : String
deriving DecidableEq, Repr

/-- The registry state: the guarded client-ID→session map plus the channel
store (`chans` is meaningful below `nextChan`). -/
structure CommandRegistry where
  agents : String → Option connectedAgent
  chans : Nat → Chan
  nextChan : Nat

/-- `NewCommandRegistry()`: empty map, no channels yet. -/
def NewCommandRegistry : CommandRegistry :=
  ⟨fun _ => none, fun _ => ⟨[], true, ""⟩, 0⟩

/-- `Register(clientID, version)`: if a session already exists for the ID,
close its channel first, then install a fresh bounded channel and session
under the same key.  Returns the new state and the new channel handle
(the receive end handed to the stream handler). -/
def Register (r : CommandRegistry) (clientID version : String) :
    CommandRegistry × Nat :=
  let r1 :=
    match r.agents clientID with
    | some a =>
      { r with
        chans := fun c =>
          if c = a.ch then { r.chans c with closed := true } else r.chans c }
    | none => r
  let newCh := r1.nextChan
  (⟨fun i => if i = clientID then some ⟨newCh, version⟩ else r1.agents i,
    fun c => if c = newCh then ⟨[], false, clientID⟩ else r1.chans c,
    newCh + 1⟩, newCh)

/-- `Unregister(clientID)`: close and remove the session if present;
idempotent on an absent ID. -/
def Unregister (r : CommandRegistry) (clientID : String) : CommandRegistry :=
  match r.agents clientID with
  | some a =>
    ⟨fun i => if i = clientID then none else r.agents i,
     fun c => if c = a.ch then { r.chans c with closed := true } else r.chans c,
     r.nextChan⟩
  | none => r

inductive SendResult where
  | ok
  | notConnected
  | timeout
deriving DecidableEq, Repr

/-- `Send(clientID, cmd)`: immediate not-connected failure when no session
exists; otherwise the bounded-wait select: if the channel has free
capacity the command is enqueued, and a channel that stays full for the
whole 5s wait yields the timeout failure.  (The 5s bound itself is wall
time; the model captures the two reachable outcomes of the wait.) -/
def Send (r : CommandRegistry) (clientID : String) (cmd : InventoryCommand) :
    CommandRegistry × SendResult :=
  match r.agents clientID with
  | none => (r, .notConnected)
  | some a =>
    if (r.chans a.ch).buf.length < commandChannelBufferSize then
      ({ r with
         chans := fun c =>
           if c = a.ch then { r.chans c with buf := (r.chans c).buf ++ [cmd] }
           else r.chans c }, .ok)
    else (r, .timeout)

/-- `IsConnected(clientID)`. -/
def IsConnected (r : CommandRegistry) (clientID : String) : Bool :=
  (r.agents clientID).isSome

/-- One registry operation, for quantifying over all sequences of calls. -/
inductive RegistryOp where
  | register (clientID version : String)
  | unregister (clientID : String)
  | send (clientID : String) (cmd : InventoryCommand)

def applyOp (r : CommandRegistry) : RegistryOp → CommandRegistry
  | .register id v => (Register r id v).1
  | .unregister id => Unregister r id
  | .send id cmd => (Send r id cmd).1

/-- The registry state after a sequence of operations from the empty
registry. -/
def runOps (ops : List RegistryOp) : CommandRegistry :=
  ops.foldl applyOp NewCommandRegistry

/-- Channel `c` is a live session for `clientID`: it was created by a
`Register` for that ID and has not been closed. -/
def liveSession (r : CommandRegistry) (clientID : String) (c : Nat) : Prop :=
  c < r.nextChan ∧ (r.chans c).owner = clientID ∧ (r.chans c).closed = false

instance (r : CommandRegistry) (id : String) (c : Nat) :
    Decidable (liveSession r id c) := by
  unfold liveSession; infer_instance

/-- Registry invariant: every installed session points below `nextChan` at
a channel it owns, and every open channel is the currently installed
session of its owner. -/
def RegInv (r : CommandRegistry) : Prop :=
  (∀ id a, r.agents id = some a →
    a.ch < r.nextChan ∧ (r.chans a.ch).owner = id) ∧
  (∀ c, c < r.nextChan → (r.chans c).closed = false →
    ∃ a, r.agents ((r.chans c).owner) = some a ∧ a.ch = c)

theorem regInv_new : RegInv NewCommandRegistry := by
  constructor
  · intro id a ha
    simp [NewCommandRegistry] at ha
  · intro c hc
    simp [NewCommandRegistry] at hc

theorem regInv_register (r : CommandRegistry) (id v : String) (h : RegInv r) :
    RegInv (Register r id v).1 := by
  obtain ⟨hA, hB⟩ := h
  cases hr : r.agents id with
  | none =>
    constructor
    · intro i a ha
      simp only [Register, hr] at ha ⊢
      by_cases hi : i = id
      · subst hi
        simp only [if_pos rfl] at ha
        cases ha
        simp
      · simp only [if_neg hi] at ha
        obtain ⟨hlt, hown⟩ := hA i a ha
        refine ⟨Nat.lt_succ_of_lt hlt, ?_⟩
        rw [if_neg (Nat.ne_of_lt hlt)]
        exact hown
    · intro c hc hopen
      simp only [Register, hr] at hc hopen ⊢
      by_cases hcn : c = r.nextChan
      · subst hcn
        simp only [if_pos rfl]
        exact ⟨⟨r.nextChan, v⟩, by simp, rfl⟩
      · have hlt : c < r.nextChan := by omega
        simp only [if_neg hcn] at hopen ⊢
        obtain ⟨a, hag, hch⟩ := hB c hlt hopen
        have hne : (r.chans c).owner ≠ id := by
          intro he
          rw [he, hr] at hag
          cases hag
        refine ⟨a, ?_, hch⟩
        rw [if_neg hne]
        exact hag
  | some a0 =>
    have hlt0 : a0.ch < r.nextChan := (hA id a0 hr).1
    constructor
    · intro i a ha
      simp only [Register, hr] at ha ⊢
      by_cases hi : i = id
      · subst hi
        simp only [if_pos rfl] at ha
        cases ha
        simp
      · simp only [if_neg hi] at ha
        obtain ⟨hlt, hown⟩ := hA i a ha
        refine ⟨Nat.lt_succ_of_lt hlt, ?_⟩
        rw [if_neg (Nat.ne_of_lt hlt)]
        by_cases hc0 : a.ch = a0.ch
        · rw [if_pos hc0]
          simpa [hc0] using hown
        · rw [if_neg hc0]
          exact hown
    · intro c hc hopen
      simp only [Register, hr] at hc hopen ⊢
      by_cases hcn : c = r.nextChan
      · subst hcn
        simp only [if_pos rfl]
        exact ⟨⟨r.nextChan, v⟩, by simp, rfl⟩
      · have hlt : c < r.nextChan := by omega
        simp only [if_neg hcn] at hopen ⊢
        by_cases hc0 : c = a0.ch
        · rw [if_pos hc0] at hopen
          simp at hopen
        · rw [if_neg hc0] at hopen ⊢
          obtain ⟨a, hag, hch⟩ := hB c hlt hopen
          have hne : (r.chans c).owner ≠ id := by
            intro he
            rw [he, hr] at hag
            cases hag
            exact hc0 hch.symm
          refine ⟨a, ?_, hch⟩
          rw [if_neg hne]
          exact hag

theorem regInv_unregister (r : CommandRegistry) (id : String) (h : RegInv r) :
    RegInv (Unregister r id) := by
  obtain ⟨hA, hB⟩ := h
  cases hr : r.agents id with
  | none => simpa [Unregister, hr] using ⟨hA, hB⟩
  | some a0 =>
    constructor
    · intro i a ha
      simp only [Unregister, hr] at ha ⊢
      by_cases hi : i = id
      · subst hi
        simp at ha
      · simp only [if_neg hi] at ha
        obtain ⟨hlt, hown⟩ := hA i a ha
        refine ⟨hlt, ?_⟩
        by_cases hc0 : a.ch = a0.ch
        · rw [if_pos hc0]
          simpa [hc0] using hown
        · rw [if_neg hc0]
          exact hown
    · intro c hc hopen
      simp only [Unregister, hr] at hc hopen ⊢
      by_cases hc0 : c = a0.ch
      · rw [if_pos hc0] at hopen
        simp at hopen
      · rw [if_neg hc0] at hopen ⊢
        obtain ⟨a, hag, hch⟩ := hB c hc hopen
        have hne : (r.chans c).owner ≠ id := by
          intro he
          rw [he, hr] at hag
          cases hag
          exact hc0 hch.symm
        refine ⟨a, ?_, hch⟩
        rw [if_neg hne]
        exact hag

theorem regInv_send (r : CommandRegistry) (id : String) (cmd : InventoryCommand)
    (h : RegInv r) : RegInv (Send r id cmd).1 := by
  obtain ⟨hA, hB⟩ := h
  cases hr : r.agents id with
  | none => simpa [Send, hr] using ⟨hA, hB⟩
  | some a0 =>
    by_cases hfull : (r.chans a0.ch).buf.length < commandChannelBufferSize
    · constructor
      · intro i a ha
        simp only [Send, hr, if_pos hfull] at ha ⊢
        obtain ⟨hlt, hown⟩ := hA i a ha
        refine ⟨hlt, ?_⟩
        by_cases hc0 : a.ch = a0.ch
        · rw [if_pos hc0]
          simpa [hc0] using hown
        · rw [if_neg hc0]
          exact hown
      · intro c hc hopen
        simp only [Send, hr, if_pos hfull] at hc hopen ⊢
        by_cases hc0 : c = a0.ch
        · rw [if_pos hc0] at hopen ⊢
          simp only at hopen
          obtain ⟨a, hag, hch⟩ := hB c (hc0 ▸ hc) (by simpa [hc0] using hopen)
          exact ⟨a, by simpa [hc0] using hag, by rw [hch, hc0]⟩
        · rw [if_neg hc0] at hopen ⊢
          exact hB c hc hopen
    · simpa [Send, hr, if_neg hfull] using ⟨hA, hB⟩

theorem regInv_applyOp (r : CommandRegistry) (op : RegistryOp) (h : RegInv r) :
    RegInv (applyOp r op) := by
  cases op with
  | register id v => exact regInv_register r id v h
  | unregister id => exact regInv_unregister r id h
  | send id cmd => exact regInv_send r id cmd h

theorem regInv_runOps (ops : List RegistryOp) : RegInv (runOps ops) := by
  have h : ∀ r, RegInv r → RegInv (ops.foldl applyOp r) := by
    induction ops with
    | nil => intro r h; exact h
    | cons op rest ih =>
      intro r h
      exact ih (applyOp r op) (regInv_applyOp r op h)
  exact h NewCommandRegistry regInv_new

theorem regInv_unique_live (r : CommandRegistry) (id : String) (c₁ c₂ : Nat)
    (h : RegInv r) (h₁ : liveSession r id c₁) (h₂ : liveSession r id c₂) :
    c₁ = c₂ := by
  obtain ⟨-, hB⟩ := h
  obtain ⟨hlt₁, hown₁, hopen₁⟩ := h₁
  obtain ⟨hlt₂, hown₂, hopen₂⟩ := h₂
  obtain ⟨a₁, hag₁, hch₁⟩ := hB c₁ hlt₁ hopen₁
  obtain ⟨a₂, hag₂, hch₂⟩ := hB c₂ hlt₂ hopen₂
  rw [hown₁] at hag₁
  rw [hown₂] at hag₂
  rw [hag₁] at hag₂
  cases hag₂
  rw [← hch₁, ← hch₂]

/-! ## Command stream handler (internal/server/handler.go)

The active loop of `StreamCommands` selects between the next channel value
and stream cancellation.  Go receive semantics on a buffered channel:
buffered values are drained first; once the channel is both closed and
drained the receive reports `ok = false` and the handler returns `nil`.
The loop below processes the channel contents under a fixed closed flag
(no sends can land on a closed channel); `fwd` is `stream.Send`, reporting
whether forwarding to the peer succeeded. -/

inductive LoopExit where
  | clean
  | sendError
  | waiting
deriving DecidableEq, Repr

/-- The `for { select { ... } }` body of `StreamCommands`, run until the
channel is drained: a buffered command is forwarded (a failed forward
terminates with that error); a drained closed channel is observed as
`ok = false` and the handler returns `nil` (`clean`); a drained open
channel leaves the handler suspended (`waiting`) on more commands or
cancellation. -/
def streamCommandsLoop (fwd : InventoryCommand → Bool) (closed : Bool) :
    List InventoryCommand → LoopExit
  | [] => if closed then .clean else .waiting
  | c :: rest => if fwd c then streamCommandsLoop fwd closed rest else .sendError

/-! ## RefreshInventory (internal/server/handler.go) -/

inductive GrpcCode where
  | ok
  | invalidArgument
  | notFound
  | unauthenticated
  | permissionDenied
  | unavailable
  | deadlineExceeded
  | internal
deriving DecidableEq, Repr

/-- `Handler.RefreshInventory`: empty hostname is `InvalidArgument`, a
hostname with no registered session is `NotFound`, and a `Send` failure is
wrapped in `codes.Internal`; on success the response `{sent, commandId}`
is returned.  `cmdID` stands for the freshly generated UUID. -/
def RefreshInventory (r : CommandRegistry) (hostname cmdID : String) :
    CommandRegistry × GrpcCode × Option (Bool × String) :=
  if hostname = "" then (r, .invalidArgument, none)
  else if IsConnected r hostname = false then (r, .notFound, none)
  else
    match Send r hostname ⟨cmdID, .refresh⟩ with
    | (r', .ok) => (r', .ok, some (true, cmdID))
    | (r', _) => (r', .internal, none)

/-! ## Agent reconnect engine (internal/daemon/daemon.go)

`time.Duration` values are `Int` nanoseconds.  `calcBackoff` computes
`baseBackoff * time.Duration(math.Pow(2, attempt-1))` and caps at
`maxBackoff`.  `math.Pow(2, k)` is exact (powers of two are representable
in float64) and the conversion to `time.Duration` is in range for
`attempt ≤ 63`, so on that domain the model is bit-exact; the `int64`
product wraps with Go's defined two's-complement semantics, modelled by
`wrap64`. -/

def baseBackoff : Int := 1000000000

def maxBackoff : Int := 120000000000

/-- Two's-complement wrapping of an `int64` product. -/
def wrap64 (n : Int) : Int := (n + 2 ^ 63) % 2 ^ 64 - 2 ^ 63

/-- `time.Duration(math.Pow(2, float64(attempt-1)))` (exact for
`attempt ≤ 63`; `attempt - 1` is Go `int` arithmetic on `attempt ≥ 1`). -/
def pow2Duration (attempt : Nat) : Int := 2 ^ (attempt - 1)

/-- `calcBackoff` from daemon.go. -/
def calcBackoff (attempt : Nat) : Int :=
  let d := wrap64 (baseBackoff * pow2Duration attempt)
  if d > maxBackoff then maxBackoff else d

/-- How one `streamLoop` call ended: the dial/stream-open failed, or the
stream was successfully opened and later disconnected (`Recv` error). -/
inductive StreamOutcome where
  | openFailed
  | streamDropped
deriving DecidableEq, Repr

/-- `reconnectLoop`'s visible behaviour on a finite prefix of `streamLoop`
results: starting from counter value `attempt`, every `streamLoop` return
increments the counter and sleeps `calcBackoff` of the new value.  The
counter is never written anywhere else in the loop. -/
def reconnectBackoffs (attempt : Nat) : List StreamOutcome → List Int
  | [] => []
  | _ :: rest =>
    calcBackoff (attempt + 1) :: reconnectBackoffs (attempt + 1) rest

/-- The backoff sleeps produced by `reconnectLoop` (initial `attempt := 0`)
for a given sequence of `streamLoop` outcomes. -/
def reconnectLoopBackoffs (outs : List StreamOutcome) : List Int :=
  reconnectBackoffs 0 outs

/-- Modelled from the spec: the attempt counter the claim describes, which
"resets to zero only after a stream is successfully opened", so a
disconnect of an opened stream counts as the first failed attempt. -/
def specAttemptAfter (attempt : Nat) : StreamOutcome → Nat
  | .openFailed => attempt + 1
  | .streamDropped => 1

/-- Modelled from the spec: the backoff sleeps under the claimed
reset-on-successful-open counter. -/
def specBackoffs (attempt : Nat) : List StreamOutcome → List Int
  | [] => []
  | o :: rest =>
    calcBackoff (specAttemptAfter attempt o) ::
      specBackoffs (specAttemptAfter attempt o) rest

/-! ## Record store (store package: src/unnamed/part_004)

Timestamps are written with `Format(time.RFC3339)` and compared by SQLite
as strings.  RFC3339 UTC strings produced by Go (`2006-01-02T15:04:05Z`)
have fixed-width zero-padded fields, so their lexicographic order is the
chronological order of the instants they encode, and the layout carries no
fractional seconds.  A stored timestamp is therefore modelled by its whole
seconds (`Int`), and a Go `time.Time` by seconds plus nanoseconds. -/

structure GoTime where
  sec : Int
  nsec : Nat
deriving DecidableEq, Repr

/-- `t.UTC().Format(time.RFC3339)`, identified with the seconds it
encodes: the sub-second part of `t` is discarded by the layout. -/
def formatRFC3339 (t : GoTime) : Int := t.sec

/-- `time.Parse(time.RFC3339, s)` for a string written by
`formatRFC3339`. -/
def parseRFC3339 (s : Int) : GoTime := ⟨s, 0⟩

/-- One row of the `inventories` table. -/
structure StoreRow where
  id : Int
  hostname : String
  username : String
  system_uuid : String
  system_serial : String
  collected_at : Int
  stored_at : Int
  inventory_json : String
deriving DecidableEq, Repr

/-- `store.InventoryRecord`. -/
structure InventoryRecord where
  ID : Int
  Hostname : String
  Username : String
  SystemUUID : String
  SystemSerial : String
  CollectedAt : GoTime
  StoredAt : GoTime
  InventoryJSON : String
deriving DecidableEq, Repr

/-- `store.Store`: the table contents plus the AUTOINCREMENT counter. -/
structure Store where
  rows : List StoreRow
  nextID : Int

/-- `scanRecord` / `scanRecordFromRows`: read a row back, parsing the two
RFC3339 columns. -/
def scanRecord (row : StoreRow) : InventoryRecord :=
  ⟨row.id, row.hostname, row.username, row.system_uuid, row.system_serial,
   parseRFC3339 row.collected_at, parseRFC3339 row.stored_at,
   row.inventory_json⟩

/-- `Store.Insert`: `storedAt := time.Now().UTC()` (the parameter `now`),
the row is written with both timestamps RFC3339-formatted, and the
assigned id and the un-formatted `storedAt` are returned. -/
def Store.Insert (s : Store) (now : GoTime) (rec : InventoryRecord) :
    Store × Int × GoTime :=
  let storedAt := now
  let row : StoreRow :=
    ⟨s.nextID, rec.Hostname, rec.Username, rec.SystemUUID, rec.SystemSerial,
     formatRFC3339 rec.CollectedAt, formatRFC3339 storedAt,
     rec.InventoryJSON⟩
  ({ rows := s.rows ++ [row], nextID := s.nextID + 1 }, s.nextID, storedAt)

/-- `Store.Get`: point lookup by id (`none` is `sql.ErrNoRows`). -/
def Store.Get (s : Store) (id : Int) : Option InventoryRecord :=
  (s.rows.find? (fun r => r.id == id)).map scanRecord

/-- `Store.Purge`: `DELETE FROM inventories WHERE collected_at < cutoff`
with `cutoff := now − olderThan`; returns the rows-affected count. -/
def Store.Purge (s : Store) (now olderThan : Int) : Store × Nat :=
  let cutoff := now - olderThan
  let remaining := s.rows.filter (fun r => !(decide (r.collected_at < cutoff)))
  ({ s with rows := remaining }, s.rows.length - remaining.length)

/-- `store.ListFilter`. -/
structure ListFilter where
  Hostname : String
  Username : String
  SystemUUID : String
  CollectedAfter : Option GoTime
  CollectedBefore : Option GoTime
  PageSize : Int
  Page : Int

/-- `buildWhere`: the conjunction of the enabled filter conditions
(an empty string / `none` disables a condition). -/
def matchesFilter (f : ListFilter) (r : StoreRow) : Bool :=
  (f.Hostname == "" || r.hostname == f.Hostname) &&
  (f.Username == "" || r.username == f.Username) &&
  (f.SystemUUID == "" || r.system_uuid == f.SystemUUID) &&
  (match f.CollectedAfter with
   | none => true
   | some t => decide (formatRFC3339 t ≤ r.collected_at)) &&
  (match f.CollectedBefore with
   | none => true
   | some t => decide (r.collected_at ≤ formatRFC3339 t))

/-- `SELECT COUNT(*) FROM inventories WHERE ...`: one scan of the table,
independent of the pagination parameters. -/
def countMatching (rows : List StoreRow) (f : ListFilter) : Nat :=
  match rows with
  | [] => 0
  | r :: rest => (if matchesFilter f r then 1 else 0) + countMatching rest f

/-- `ORDER BY collected_at DESC`: `a` before `b` when `a` was collected no
earlier than `b`. -/
def collectedDesc (a b : StoreRow) : Prop := b.collected_at ≤ a.collected_at

instance : DecidableRel collectedDesc := fun a b => by
  unfold collectedDesc; infer_instance

instance : IsTotal StoreRow collectedDesc :=
  ⟨fun a b => Int.le_total b.collected_at a.collected_at⟩

instance : IsTrans StoreRow collectedDesc :=
  ⟨fun _ _ _ h₁ h₂ => le_trans h₂ h₁⟩

/-- The page query selects `''` for `inventory_json` (summaries). -/
def blankJSON (r : StoreRow) : StoreRow := { r with inventory_json := "" }

/-- `Store.List`: count all matching rows, default non-positive
`PageSize`/`Page` to 50 and 1, then fetch the page
`LIMIT pageSize OFFSET (page-1)*pageSize` in descending `collected_at`
order. -/
def Store.List (s : Store) (f : ListFilter) : List InventoryRecord × Nat :=
  let total := countMatching s.rows f
  let pageSize := if f.PageSize ≤ 0 then (50 : Int) else f.PageSize
  let page := if f.Page ≤ 0 then (1 : Int) else f.Page
  let offset := (page - 1) * pageSize
  let sorted := List.insertionSort collectedDesc (s.rows.filter (matchesFilter f))
  let pageRows := (sorted.drop offset.toNat).take pageSize.toNat
  (pageRows.map (fun r => scanRecord (blankJSON r)), total)

/-! ## Claim theorems -/

/-- C1: the auth gate implements the two-tier decision procedure for every
call, unary and streaming alike: with both secrets unconfigured, a call
with no credential header is allowed; a present elevated header matching
the elevated secret allows any operation, and an elevated mismatch fails
Unauthenticated with no fallback to the restricted header; a matching
restricted header allows exactly the allowlisted operations
(`/SubmitInventory` unary, `/StreamCommands` streaming) and fails
PermissionDenied outside them (e.g. list-inventories); a restricted
mismatch fails Unauthenticated; a call with neither header fails
Unauthenticated. -/
theorem auth_two_tier_decision :
    (∀ fm, AuthInterceptor "" "" (some ⟨none, none⟩) fm = .allow ∧
      AuthStreamInterceptor "" "" (some ⟨none, none⟩) fm = .allow) ∧
    (∀ cs apiS fm ch, apiS ≠ "" →
      AuthInterceptor cs apiS (some ⟨some apiS, ch⟩) fm = .allow ∧
      AuthStreamInterceptor cs apiS (some ⟨some apiS, ch⟩) fm = .allow) ∧
    (∀ cs apiS fm v ch, apiS ≠ "" → v ≠ apiS →
      AuthInterceptor cs apiS (some ⟨some v, ch⟩) fm = .unauthenticated ∧
      AuthStreamInterceptor cs apiS (some ⟨some v, ch⟩) fm = .unauthenticated) ∧
    (∀ cs apiS fm, cs ≠ "" → hasSuffix fm "/SubmitInventory" = true →
      AuthInterceptor cs apiS (some ⟨none, some cs⟩) fm = .allow) ∧
    (∀ cs apiS fm, cs ≠ "" → hasSuffix fm "/StreamCommands" = true →
      AuthStreamInterceptor cs apiS (some ⟨none, some cs⟩) fm = .allow) ∧
    (∀ cs apiS fm, cs ≠ "" → hasSuffix fm "/SubmitInventory" = false →
      AuthInterceptor cs apiS (some ⟨none, some cs⟩) fm = .permissionDenied) ∧
    (∀ cs apiS fm, cs ≠ "" → hasSuffix fm "/StreamCommands" = false →
      AuthStreamInterceptor cs apiS (some ⟨none, some cs⟩) fm =
        .permissionDenied) ∧
    (∀ cs apiS fm v, cs ≠ "" → v ≠ cs →
      AuthInterceptor cs apiS (some ⟨none, some v⟩) fm = .unauthenticated ∧
      AuthStreamInterceptor cs apiS (some ⟨none, some v⟩) fm =
        .unauthenticated) ∧
    (∀ cs apiS fm, ¬(cs = "" ∧ apiS = "") →
      AuthInterceptor cs apiS (some ⟨none, none⟩) fm = .unauthenticated ∧
      AuthStreamInterceptor cs apiS (some ⟨none, none⟩) fm =
        .unauthenticated) := by
  refine ⟨?_, ?_, ?_, ?_, ?_, ?_, ?_, ?_, ?_⟩
  · intro fm
    constructor <;> rfl
  · intro cs apiS fm ch h
    constructor <;>
      simp [AuthInterceptor, AuthStreamInterceptor, authGate, h]
  · intro cs apiS fm v ch h hv
    constructor <;>
      simp [AuthInterceptor, AuthStreamInterceptor, authGate, h, hv]
  · intro cs apiS fm h hfm
    by_cases ha : apiS = "" <;>
      simp [AuthInterceptor, authGate, clientSecretBranch,
        allowedClientSecretUnaryMethods, h, ha, hfm]
  · intro cs apiS fm h hfm
    by_cases ha : apiS = "" <;>
      simp [AuthStreamInterceptor, authGate, clientSecretBranch,
        allowedClientSecretStreamMethods, h, ha, hfm]
  · intro cs apiS fm h hfm
    by_cases ha : apiS = "" <;>
      simp [AuthInterceptor, authGate, clientSecretBranch,
        allowedClientSecretUnaryMethods, h, ha, hfm]
  · intro cs apiS fm h hfm
    by_cases ha : apiS = "" <;>
      simp [AuthStreamInterceptor, authGate, clientSecretBranch,
        allowedClientSecretStreamMethods, h, ha, hfm]
  · intro cs apiS fm v h hv
    constructor <;> by_cases ha : apiS = "" <;>
      simp [AuthInterceptor, AuthStreamInterceptor, authGate,
        clientSecretBranch, h, ha, hv]
  · intro cs apiS fm h
    constructor <;> by_cases ha : apiS = "" <;>
      by_cases hc : cs = "" <;>
      simp_all [AuthInterceptor, AuthStreamInterceptor, authGate,
        clientSecretBranch]

/-- C1 witness: the decision procedure evaluated on concrete calls. -/
theorem auth_two_tier_decision_witness :
    AuthInterceptor "" "" (some ⟨none, none⟩) "/x.v1.Svc/ListInventories" =
      .allow ∧
    AuthInterceptor "csec" "asec" (some ⟨some "asec", some "csec"⟩)
      "/x.v1.Svc/ListInventories" = .allow ∧
    AuthInterceptor "csec" "asec" (some ⟨some "bad", some "csec"⟩)
      "/x.v1.Svc/SubmitInventory" = .unauthenticated ∧
    AuthInterceptor "csec" "asec" (some ⟨none, some "csec"⟩)
      "/x.v1.Svc/SubmitInventory" = .allow ∧
    AuthStreamInterceptor "csec" "asec" (some ⟨none, some "csec"⟩)
      "/x.v1.Svc/StreamCommands" = .allow ∧
    AuthInterceptor "csec" "asec" (some ⟨none, some "csec"⟩)
      "/x.v1.Svc/ListInventories" = .permissionDenied ∧
    AuthStreamInterceptor "csec" "asec" (some ⟨none, some "csec"⟩)
      "/x.v1.Svc/ListInventories" = .permissionDenied ∧
    AuthInterceptor "csec" "asec" (some ⟨none, some "bad"⟩)
      "/x.v1.Svc/SubmitInventory" = .unauthenticated ∧
    AuthInterceptor "csec" "asec" (some ⟨none, none⟩)
      "/x.v1.Svc/SubmitInventory" = .unauthenticated :=
  ⟨(auth_two_tier_decision.1 "/x.v1.Svc/ListInventories").1,
   (auth_two_tier_decision.2.1 "csec" "asec" "/x.v1.Svc/ListInventories"
     (some "csec") (by decide)).1,
   (auth_two_tier_decision.2.2.1 "csec" "asec" "/x.v1.Svc/SubmitInventory"
     "bad" (some "csec") (by decide) (by decide)).1,
   auth_two_tier_decision.2.2.2.1 "csec" "asec" "/x.v1.Svc/SubmitInventory"
     (by decide) (by decide),
   auth_two_tier_decision.2.2.2.2.1 "csec" "asec" "/x.v1.Svc/StreamCommands"
     (by decide) (by decide),
   auth_two_tier_decision.2.2.2.2.2.1 "csec" "asec"
     "/x.v1.Svc/ListInventories" (by decide) (by decide),
   auth_two_tier_decision.2.2.2.2.2.2.1 "csec" "asec"
     "/x.v1.Svc/ListInventories" (by decide) (by decide),
   (auth_two_tier_decision.2.2.2.2.2.2.2.1 "csec" "asec"
     "/x.v1.Svc/SubmitInventory" "bad" (by decide) (by decide)).1,
   (auth_two_tier_decision.2.2.2.2.2.2.2.2 "csec" "asec"
     "/x.v1.Svc/SubmitInventory" (by decide)).1⟩

/-- C2: `Register(clientID, version)` closes the channel of any existing
session for that client ID and installs a fresh open bounded channel and
session under the same key; consequently no sequence of registry
operations leaves two live sessions for one client ID. -/
theorem register_single_live_session :
    (∀ r id v a, r.agents id = some a → a.ch < r.nextChan →
      (((Register r id v).1).chans a.ch).closed = true) ∧
    (∀ r id v,
      ((Register r id v).1).agents id = some ⟨(Register r id v).2, v⟩ ∧
      ((Register r id v).1).chans (Register r id v).2 = ⟨[], false, id⟩ ∧
      ((Register r id v).1).nextChan = (Register r id v).2 + 1) ∧
    (∀ ops id c₁ c₂, liveSession (runOps ops) id c₁ →
      liveSession (runOps ops) id c₂ → c₁ = c₂) := by
  refine ⟨?_, ?_, ?_⟩
  · intro r id v a ha hlt
    simp [Register, ha, Nat.ne_of_lt hlt]
  · intro r id v
    cases hr : r.agents id <;> simp [Register, hr]
  · intro ops id c₁ c₂ h₁ h₂
    exact regInv_unique_live (runOps ops) id c₁ c₂ (regInv_runOps ops) h₁ h₂

/-- C2 witness: re-registering `host1` closes the first session's channel,
installs a fresh one, and the only live channel for `host1` is the new
one. -/
theorem register_single_live_session_witness :
    (((Register (Register NewCommandRegistry "host1" "v1").1 "host1"
        "v2").1).chans 0).closed = true ∧
    liveSession (runOps [.register "host1" "v1", .register "host1" "v2"])
      "host1" 1 ∧
    (1 : Nat) = 1 :=
  ⟨register_single_live_session.1 (Register NewCommandRegistry "host1" "v1").1
      "host1" "v2" ⟨0, "v1"⟩ (by decide) (by decide),
   by decide,
   register_single_live_session.2.2
      [.register "host1" "v1", .register "host1" "v2"] "host1" 1 1
      (by decide) (by decide)⟩

/-- C3: `Send(clientID, cmd)` on an unregistered client ID fails
immediately with the not-connected result and leaves the registry
untouched; on a registered session with free channel capacity it enqueues
the command at the tail and returns ok; on a registered session whose
channel is full (and stays full for the whole bounded wait) it fails with
the timeout result and enqueues nothing.  `Send` is a total function of
the registry state: every call returns one of the three results. -/
theorem send_bounded_contract :
    (∀ r id cmd, r.agents id = none →
      Send r id cmd = (r, .notConnected)) ∧
    (∀ r id cmd a, r.agents id = some a →
      (r.chans a.ch).buf.length < commandChannelBufferSize →
      (Send r id cmd).2 = .ok ∧
      ((Send r id cmd).1.chans a.ch).buf = (r.chans a.ch).buf ++ [cmd]) ∧
    (∀ r id cmd a, r.agents id = some a →
      ¬ (r.chans a.ch).buf.length < commandChannelBufferSize →
      Send r id cmd = (r, .timeout)) := by
  refine ⟨?_, ?_, ?_⟩
  · intro r id cmd h
    simp [Send, h]
  · intro r id cmd a ha hlt
    simp [Send, ha, hlt]
  · intro r id cmd a ha hfull
    simp [Send, ha, hfull]

/-- A registry with one connected agent `host1` whose 16-slot channel is
completely full. -/
def busyRegistry : CommandRegistry :=
  ⟨fun i => if i = "host1" then some ⟨0, "v1"⟩ else none,
   fun _ => ⟨List.replicate commandChannelBufferSize ⟨"queued", .refresh⟩,
     false, "host1"⟩, 1⟩

/-- C3 witness: the three `Send` outcomes on concrete registries. -/
theorem send_bounded_contract_witness :
    Send NewCommandRegistry "ghost" ⟨"c1", .refresh⟩ =
      (NewCommandRegistry, .notConnected) ∧
    ((Send (Register NewCommandRegistry "host1" "v1").1 "host1"
        ⟨"c2", .refresh⟩).2 = .ok ∧
      ((Send (Register NewCommandRegistry "host1" "v1").1 "host1"
        ⟨"c2", .refresh⟩).1.chans 0).buf = [] ++ [⟨"c2", .refresh⟩]) ∧
    Send busyRegistry "host1" ⟨"c3", .refresh⟩ = (busyRegistry, .timeout) :=
  ⟨send_bounded_contract.1 NewCommandRegistry "ghost" ⟨"c1", .refresh⟩
      (by decide),
   send_bounded_contract.2.1 (Register NewCommandRegistry "host1" "v1").1
      "host1" ⟨"c2", .refresh⟩ ⟨0, "v1"⟩ (by decide) (by decide),
   send_bounded_contract.2.2 busyRegistry "host1" ⟨"c3", .refresh⟩ ⟨0, "v1"⟩
      (by decide) (by decide)⟩

/-- C4 counterexample: run `reconnectLoop` through two failed connect
attempts followed by a successfully opened stream that later disconnects.
The claim says the backoff after that disconnect is computed as a first
failed attempt (`calcBackoff 1` = 1s); the code sleeps `calcBackoff 3`
= 4s, because the attempt counter is never reset. -/
theorem reconnect_reset_counterexample :
    reconnectLoopBackoffs [.openFailed, .openFailed, .streamDropped] =
      [1000000000, 2000000000, 4000000000] ∧
    specBackoffs 0 [.openFailed, .openFailed, .streamDropped] =
      [1000000000, 2000000000, 1000000000] ∧
    (reconnectLoopBackoffs
        [.openFailed, .openFailed, .streamDropped]).getD 2 0 ≠
      calcBackoff 1 := by
  refine ⟨by decide, by decide, by decide⟩

/-- C4 amended: the consecutive-failure attempt counter of
`reconnectLoop` is never reset — it increments on every `streamLoop`
return, whether the stream failed to open or was opened and later
disconnected — so the k-th backoff sleep is always `calcBackoff k` of the
cumulative count of `streamLoop` returns, regardless of the outcomes; in
particular, after a successfully opened stream disconnects, the next delay
continues the cumulative sequence rather than restarting at the
first-attempt value. -/
theorem reconnect_attempt_never_resets :
    (∀ (outs : List StreamOutcome) (a : Nat),
      reconnectBackoffs a outs =
        (List.range outs.length).map (fun k => calcBackoff (a + k + 1))) ∧
    (∀ outs : List StreamOutcome,
      reconnectLoopBackoffs outs =
        (List.range outs.length).map (fun k => calcBackoff (k + 1))) := by
  have h : ∀ (outs : List StreamOutcome) (a : Nat),
      reconnectBackoffs a outs =
        (List.range outs.length).map (fun k => calcBackoff (a + k + 1)) := by
    intro outs
    induction outs with
    | nil => intro a; simp [reconnectBackoffs]
    | cons o rest ih =>
      intro a
      have ht : reconnectBackoffs a (o :: rest) =
          calcBackoff (a + 1) :: reconnectBackoffs (a + 1) rest := rfl
      rw [ht, ih (a + 1), List.length_cons, List.range_succ_eq_map,
        List.map_cons, List.map_map]
      congr 1
      apply List.map_congr_left
      intro k _
      congr 1
      omega
  refine ⟨h, ?_⟩
  intro outs
  simpa using h outs 0

/-- C5 counterexample: the delay is not `min(1s·2^(n−1), 120s)` for every
attempt `n ≥ 1`.  At attempt 35 the product
`baseBackoff * time.Duration(2^34)` overflows int64 and wraps negative, so
`calcBackoff 35` is a negative duration (an immediate retry under
`time.After`) instead of the claimed 120s cap. -/
theorem calcBackoff_overflow_counterexample :
    calcBackoff 35 = -1266874889709551616 ∧
    calcBackoff 35 ≠ min ((1000000000 : Int) * 2 ^ (35 - 1)) 120000000000 ∧
    calcBackoff 35 < 0 := by
  refine ⟨by decide, by decide, by decide⟩

/-- `wrap64` is the identity on the int64 range. -/
theorem wrap64_eq_self (n : Int) (h₁ : -(2 ^ 63) ≤ n) (h₂ : n < 2 ^ 63) :
    wrap64 n = n := by
  unfold wrap64
  rw [Int.emod_eq_of_lt (by omega) (by omega)]
  omega

/-- C5 amended: for every attempt `1 ≤ n ≤ 34` the reconnect backoff delay
equals `min(1s · 2^(n−1), 120s)` — concretely 1, 2, 4, 8, 16, 32, 64
seconds for attempts 1–7 and 120 seconds for attempts 8–34; from attempt
35 on, the int64 product overflows, so the cap no longer describes the
result (see the counterexample). -/
theorem calcBackoff_formula :
    (∀ n : Nat, 1 ≤ n → n ≤ 34 →
      calcBackoff n = min ((1000000000 : Int) * 2 ^ (n - 1)) 120000000000) ∧
    (List.range 7).map (fun k => calcBackoff (k + 1)) =
      [1000000000, 2000000000, 4000000000, 8000000000, 16000000000,
       32000000000, 64000000000] ∧
    (∀ n : Nat, 8 ≤ n → n ≤ 34 → calcBackoff n = 120000000000) := by
  have key : ∀ n : Nat, 1 ≤ n → n ≤ 34 →
      calcBackoff n = min ((1000000000 : Int) * 2 ^ (n - 1)) 120000000000 := by
    intro n h1 h2
    have hpow : (2 : Int) ^ (n - 1) ≤ 2 ^ 33 := by
      apply pow_le_pow_right₀ (by norm_num)
      omega
    have hpos : (0 : Int) < 2 ^ (n - 1) := by positivity
    have hlt : (1000000000 : Int) * 2 ^ (n - 1) < 2 ^ 63 := by
      calc (1000000000 : Int) * 2 ^ (n - 1)
          ≤ 1000000000 * 2 ^ 33 := by
            exact mul_le_mul_of_nonneg_left hpow (by norm_num)
        _ < 2 ^ 63 := by norm_num
    have hge : -(2 ^ 63) ≤ (1000000000 : Int) * 2 ^ (n - 1) := by
      have h0 : (0 : Int) ≤ 1000000000 * 2 ^ (n - 1) := by positivity
      linarith
    unfold calcBackoff
    rw [show baseBackoff = (1000000000 : Int) from rfl,
      show pow2Duration n = (2 : Int) ^ (n - 1) from rfl,
      wrap64_eq_self _ hge hlt]
    rw [show maxBackoff = (120000000000 : Int) from rfl]
    rcases le_or_lt ((1000000000 : Int) * 2 ^ (n - 1)) 120000000000 with h | h
    · rw [if_neg (by omega), min_eq_left h]
    · rw [if_pos h, min_eq_right (le_of_lt h)]
  refine ⟨key, by decide, ?_⟩
  intro n h8 h34
  rw [key n (by omega) h34]
  have : (120000000000 : Int) ≤ 1000000000 * 2 ^ (n - 1) := by
    calc (120000000000 : Int) ≤ 1000000000 * 2 ^ 7 := by norm_num
      _ ≤ 1000000000 * 2 ^ (n - 1) := by
          apply mul_le_mul_of_nonneg_left _ (by norm_num)
          apply pow_le_pow_right₀ (by norm_num)
          omega
  omega

/-- C5 witness: the formula evaluated at attempts 7, 8 and 34. -/
theorem calcBackoff_formula_witness :
    calcBackoff 7 = min ((1000000000 : Int) * 2 ^ (7 - 1)) 120000000000 ∧
    calcBackoff 8 = min ((1000000000 : Int) * 2 ^ (8 - 1)) 120000000000 ∧
    calcBackoff 34 = 120000000000 :=
  ⟨calcBackoff_formula.1 7 (by decide) (by decide),
   calcBackoff_formula.1 8 (by decide) (by decide),
   calcBackoff_formula.2.2 34 (by decide) (by decide)⟩

/-- Helper for C6: a closed channel whose drained commands all forward
successfully lets the handler run to the closed-channel observation and
return cleanly. -/
theorem streamCommandsLoop_closed_clean (fwd : InventoryCommand → Bool) :
    ∀ buf : List InventoryCommand, (∀ c ∈ buf, fwd c = true) →
      streamCommandsLoop fwd true buf = .clean := by
  intro buf
  induction buf with
  | nil => intro _; rfl
  | cons c rest ih =>
    intro h
    have hc : fwd c = true := h c (List.mem_cons_self c rest)
    have hr : ∀ x ∈ rest, fwd x = true :=
      fun x hx => h x (List.mem_cons_of_mem c hx)
    simp [streamCommandsLoop, hc, ih hr]

/-- C6: a stream handler whose command channel is observed closed (drained
and closed — because the session was superseded by a later `Register` for
the same client ID, or explicitly unregistered) terminates cleanly with no
error: the receive reports closure rather than a delivered command, and the
handler returns success.  In particular, the handler of a session
superseded by `Register` drains its channel and, when forwarding the
drained commands succeeds, exits cleanly. -/
theorem handler_clean_exit_on_closed_channel :
    (∀ fwd, streamCommandsLoop fwd true [] = .clean) ∧
    (∀ fwd buf, (∀ c ∈ buf, fwd c = true) →
      streamCommandsLoop fwd true buf = .clean) ∧
    (∀ r id v a fwd, r.agents id = some a → a.ch < r.nextChan →
      (∀ c ∈ (((Register r id v).1).chans a.ch).buf, fwd c = true) →
      streamCommandsLoop fwd ((((Register r id v).1).chans a.ch).closed)
        ((((Register r id v).1).chans a.ch).buf) = .clean) := by
  refine ⟨fun fwd => rfl, streamCommandsLoop_closed_clean, ?_⟩
  intro r id v a fwd ha hlt hfwd
  have hclosed : (((Register r id v).1).chans a.ch).closed = true := by
    simp [Register, ha, Nat.ne_of_lt hlt]
  rw [hclosed]
  exact streamCommandsLoop_closed_clean fwd _ hfwd

/-- C6 witness: a superseded handler with one drained command exits
cleanly. -/
theorem handler_clean_exit_on_closed_channel_witness :
    streamCommandsLoop (fun _ => true) true [] = .clean ∧
    streamCommandsLoop (fun _ => true) true [⟨"c1", .refresh⟩] = .clean ∧
    streamCommandsLoop (fun _ => true)
      ((((Register (Register NewCommandRegistry "host1" "v1").1 "host1"
        "v2").1).chans 0).closed)
      ((((Register (Register NewCommandRegistry "host1" "v1").1 "host1"
        "v2").1).chans 0).buf) = .clean :=
  ⟨handler_clean_exit_on_closed_channel.1 (fun _ => true),
   handler_clean_exit_on_closed_channel.2.1 (fun _ => true)
      [⟨"c1", .refresh⟩] (by decide),
   handler_clean_exit_on_closed_channel.2.2
      (Register NewCommandRegistry "host1" "v1").1 "host1" "v2" ⟨0, "v1"⟩
      (fun _ => true) (by decide) (by decide) (by decide)⟩

/-- C7 counterexample: with agent `host1` connected but its command
channel full, `RefreshInventory` fails with `codes.Internal` — not with a
distinct Unavailable/Timeout result as the claim requires. -/
theorem refresh_busy_maps_to_internal :
    (RefreshInventory busyRegistry "host1" "cmd-1").2.1 =
      GrpcCode.internal ∧
    (RefreshInventory busyRegistry "host1" "cmd-1").2.1 ≠
      GrpcCode.unavailable ∧
    (RefreshInventory busyRegistry "host1" "cmd-1").2.1 ≠
      GrpcCode.deadlineExceeded := by
  refine ⟨by decide, by decide, by decide⟩

/-- C7 amended: when command delivery to a connected but busy agent fails
(the session's channel stays full for the whole bounded wait),
`RefreshInventory` fails with `codes.Internal` — the same code used for
storage or serialization failure — rather than a distinct
Unavailable/Timeout result; the busy-delivery outcome is therefore not
distinguishable from Internal by the API caller. -/
theorem refresh_busy_internal_contract :
    ∀ r hostname cmdID a, hostname ≠ "" →
      r.agents hostname = some a →
      ¬ (r.chans a.ch).buf.length < commandChannelBufferSize →
      RefreshInventory r hostname cmdID = (r, GrpcCode.internal, none) := by
  intro r hostname cmdID a hne ha hfull
  have hsend : Send r hostname ⟨cmdID, .refresh⟩ = (r, .timeout) := by
    simp [Send, ha, hfull]
  simp [RefreshInventory, hne, IsConnected, ha, hsend]

/-- C7 amended witness: the busy registry evaluated concretely. -/
theorem refresh_busy_internal_contract_witness :
    RefreshInventory busyRegistry "host1" "cmd-2" =
      (busyRegistry, GrpcCode.internal, none) :=
  refresh_busy_internal_contract busyRegistry "host1" "cmd-2" ⟨0, "v1"⟩
    (by decide) (by decide) (by decide)

/-- Splitting a list by a predicate splits its length. -/
theorem length_filter_not_add {α : Type} (p : α → Bool) (l : List α) :
    (l.filter (fun a => !(p a))).length + (l.filter p).length = l.length := by
  induction l with
  | nil => rfl
  | cons a t ih =>
    cases hp : p a <;> simp [List.filter_cons, hp] <;> omega

/-- C8: `Purge` with cutoff `now − olderThan` keeps exactly the rows whose
collection time is not strictly before the cutoff (a row collected exactly
at the cutoff is kept), reports as removed exactly the rows strictly
before the cutoff, and running `Purge` again at the same instant with no
new writes removes 0 rows. -/
theorem purge_exact_and_idempotent :
    ∀ (s : Store) (now w : Int),
      (∀ r : StoreRow, r ∈ (Store.Purge s now w).1.rows ↔
        (r ∈ s.rows ∧ ¬ r.collected_at < now - w)) ∧
      (Store.Purge s now w).2 =
        (s.rows.filter (fun r => decide (r.collected_at < now - w))).length ∧
      (Store.Purge (Store.Purge s now w).1 now w).2 = 0 := by
  intro s now w
  refine ⟨?_, ?_, ?_⟩
  · intro r
    simp [Store.Purge, List.mem_filter]
  · have h := length_filter_not_add
      (fun r : StoreRow => decide (r.collected_at < now - w)) s.rows
    simp only [Store.Purge]
    omega
  · simp only [Store.Purge, List.filter_filter, Bool.and_self]
    omega

/-- A concrete record carrying a sub-second collection timestamp. -/
def sampleRecord : InventoryRecord :=
  ⟨0, "host1", "alice", "uuid-1", "serial-1", ⟨100, 500000000⟩, ⟨0, 0⟩,
   "payload"⟩

/-- C9 counterexample: a record inserted with collection time 100s +
500000000ns is read back by `Get` with collection time 100s + 0ns: the
RFC3339 layout carries no fractional seconds, so `collectedAt` is not
preserved verbatim. -/
theorem insert_subsecond_counterexample :
    (Store.Get (Store.Insert ⟨[], 1⟩ ⟨1000, 0⟩ sampleRecord).1
        (Store.Insert ⟨[], 1⟩ ⟨1000, 0⟩ sampleRecord).2.1).map
      (fun rec => rec.CollectedAt) = some ⟨100, 0⟩ ∧
    sampleRecord.CollectedAt = ⟨100, 500000000⟩ ∧
    (⟨100, 0⟩ : GoTime) ≠ ⟨100, 500000000⟩ := by
  refine ⟨by decide, by decide, by decide⟩

/-- C9 amended: `Insert` assigns the id and `storedAt` and stores the
caller-supplied `collectedAt` truncated to whole seconds (the RFC3339
layout has no fractional-second field); a subsequent `Get` of the assigned
id returns a record whose `collectedAt` equals the supplied value with its
sub-second part zeroed — hence exactly the supplied value whenever the
caller's timestamp has no sub-second component. -/
theorem insert_roundtrip_whole_seconds :
    ∀ (s : Store) (now : GoTime) (rec : InventoryRecord),
      (∀ row ∈ s.rows, row.id ≠ s.nextID) →
      ∃ out, Store.Get (Store.Insert s now rec).1
          (Store.Insert s now rec).2.1 = some out ∧
        out.CollectedAt = ⟨rec.CollectedAt.sec, 0⟩ ∧
        (rec.CollectedAt.nsec = 0 → out.CollectedAt = rec.CollectedAt) := by
  intro s now rec hids
  have hnone : s.rows.find? (fun r => r.id == s.nextID) = none := by
    apply List.find?_eq_none.mpr
    intro x hx
    simpa using hids x hx
  refine ⟨scanRecord ⟨s.nextID, rec.Hostname, rec.Username, rec.SystemUUID,
    rec.SystemSerial, formatRFC3339 rec.CollectedAt, formatRFC3339 now,
    rec.InventoryJSON⟩, ?_, rfl, ?_⟩
  · simp [Store.Insert, Store.Get, List.find?_append, hnone, List.find?]
  · intro h0
    cases hct : rec.CollectedAt with
    | mk sec nsec =>
      rw [hct] at h0
      simp at h0
      simp [scanRecord, parseRFC3339, formatRFC3339, hct, h0]

/-- C9 witness: a whole-second timestamp round-trips exactly through
`Insert` and `Get` on an empty store. -/
theorem insert_roundtrip_whole_seconds_witness :
    ∃ out, Store.Get
        (Store.Insert ⟨[], 1⟩ ⟨1000, 0⟩
          { sampleRecord with CollectedAt := ⟨100, 0⟩ }).1
        (Store.Insert ⟨[], 1⟩ ⟨1000, 0⟩
          { sampleRecord with CollectedAt := ⟨100, 0⟩ }).2.1 = some out ∧
      out.CollectedAt = ⟨(100 : Int), 0⟩ ∧
      ((0 : Nat) = 0 → out.CollectedAt = ⟨(100 : Int), 0⟩) :=
  insert_roundtrip_whole_seconds ⟨[], 1⟩ ⟨1000, 0⟩
    { sampleRecord with CollectedAt := ⟨100, 0⟩ } (by decide)

/-- The count query agrees with filtering the table. -/
theorem countMatching_eq_length_filter (rows : List StoreRow) (f : ListFilter) :
    countMatching rows f = (rows.filter (matchesFilter f)).length := by
  induction rows with
  | nil => rfl
  | cons r t ih =>
    cases hr : matchesFilter f r
    · simp [countMatching, List.filter_cons, hr, ih]
    · simp [countMatching, List.filter_cons, hr, ih]
      omega

/-- C10: `List` replaces a non-positive pageSize by 50 and a non-positive
page by 1; the returned page is the slice of the matching rows at offset
`(page−1)·pageSize` in descending collected_at order (limited to pageSize
rows, json column blanked); and the returned totalCount counts all
matching rows, independently of the pagination parameters. -/
theorem list_pagination_contract :
    (∀ s f, f.PageSize ≤ 0 →
      Store.List s f = Store.List s { f with PageSize := 50 }) ∧
    (∀ s f, f.Page ≤ 0 →
      Store.List s f = Store.List s { f with Page := 1 }) ∧
    (∀ s f, (Store.List s f).2 = (s.rows.filter (matchesFilter f)).length) ∧
    (∀ s f, 0 < f.PageSize → 0 < f.Page →
      (Store.List s f).1 =
        (((List.insertionSort collectedDesc
            (s.rows.filter (matchesFilter f))).drop
              (((f.Page - 1) * f.PageSize).toNat)).take
            f.PageSize.toNat).map (fun r => scanRecord (blankJSON r))) ∧
    (∀ s f, List.Pairwise
      (fun x y : InventoryRecord => y.CollectedAt.sec ≤ x.CollectedAt.sec)
      (Store.List s f).1) := by
  refine ⟨?_, ?_, ?_, ?_, ?_⟩
  · intro s f h
    have hm : matchesFilter { f with PageSize := (50 : Int) } =
        matchesFilter f := rfl
    have hc : countMatching s.rows { f with PageSize := (50 : Int) } =
        countMatching s.rows f := by
      rw [countMatching_eq_length_filter, countMatching_eq_length_filter, hm]
    simp [Store.List, hc, hm, h]
  · intro s f h
    have hm : matchesFilter { f with Page := (1 : Int) } =
        matchesFilter f := rfl
    have hc : countMatching s.rows { f with Page := (1 : Int) } =
        countMatching s.rows f := by
      rw [countMatching_eq_length_filter, countMatching_eq_length_filter, hm]
    simp [Store.List, hc, hm, h]
  · intro s f
    simp [Store.List, countMatching_eq_length_filter]
  · intro s f hps hpg
    simp [Store.List, if_neg (not_le.mpr hps), if_neg (not_le.mpr hpg)]
  · intro s f
    simp only [Store.List]
    have hs : List.Pairwise collectedDesc
        (List.insertionSort collectedDesc (s.rows.filter (matchesFilter f))) :=
      List.sorted_insertionSort collectedDesc _
    have hsub : List.Sublist
        (((List.insertionSort collectedDesc
          (s.rows.filter (matchesFilter f))).drop
            ((((if f.Page ≤ 0 then (1 : Int) else f.Page) - 1) *
              (if f.PageSize ≤ 0 then (50 : Int) else f.PageSize)).toNat)).take
          (if f.PageSize ≤ 0 then (50 : Int) else f.PageSize).toNat)
        (List.insertionSort collectedDesc (s.rows.filter (matchesFilter f))) :=
      List.Sublist.trans (List.take_sublist _ _) (List.drop_sublist _ _)
    exact (hs.sublist hsub).map _ (fun a b hab => hab)

/-- A concrete two-row store for evaluating `List` and `Purge`. -/
def sampleStore : Store :=
  ⟨[⟨1, "h1", "u1", "uu1", "s1", 100, 100, "a"⟩,
    ⟨2, "h2", "u2", "uu2", "s2", 200, 200, "b"⟩], 3⟩

/-- C8 witness: purging the two-row store at cutoff 200 removes exactly
the row collected at 100, keeps the row collected exactly at the cutoff,
and a second purge at the same instant removes 0 rows. -/
theorem purge_exact_and_idempotent_witness :
    ((⟨2, "h2", "u2", "uu2", "s2", 200, 200, "b"⟩ : StoreRow) ∈
        (Store.Purge sampleStore 250 50).1.rows ↔
      ((⟨2, "h2", "u2", "uu2", "s2", 200, 200, "b"⟩ : StoreRow) ∈
        sampleStore.rows ∧ ¬ (200 : Int) < 250 - 50)) ∧
    (Store.Purge sampleStore 250 50).2 =
      (sampleStore.rows.filter
        (fun r => decide (r.collected_at < 250 - 50))).length ∧
    (Store.Purge (Store.Purge sampleStore 250 50).1 250 50).2 = 0 :=
  ⟨(purge_exact_and_idempotent sampleStore 250 50).1
      ⟨2, "h2", "u2", "uu2", "s2", 200, 200, "b"⟩,
   (purge_exact_and_idempotent sampleStore 250 50).2.1,
   (purge_exact_and_idempotent sampleStore 250 50).2.2⟩

/-- C10 witness: the pagination defaults and the page slice evaluated on a
concrete store. -/
theorem list_pagination_contract_witness :
    Store.List sampleStore ⟨"", "", "", none, none, 0, 1⟩ =
      Store.List sampleStore ⟨"", "", "", none, none, 50, 1⟩ ∧
    Store.List sampleStore ⟨"", "", "", none, none, 2, 0⟩ =
      Store.List sampleStore ⟨"", "", "", none, none, 2, 1⟩ ∧
    (Store.List sampleStore ⟨"", "", "", none, none, 1, 2⟩).1 =
      (((List.insertionSort collectedDesc
          (sampleStore.rows.filter
            (matchesFilter ⟨"", "", "", none, none, 1, 2⟩))).drop
            ((((2 : Int) - 1) * 1).toNat)).take
          ((1 : Int)).toNat).map (fun r => scanRecord (blankJSON r)) :=
  ⟨list_pagination_contract.1 sampleStore ⟨"", "", "", none, none, 0, 1⟩
      (by decide),
   list_pagination_contract.2.1 sampleStore ⟨"", "", "", none, none, 2, 0⟩
      (by decide),
   list_pagination_contract.2.2.2.1 sampleStore
      ⟨"", "", "", none, none, 1, 2⟩ (by decide) (by decide)⟩

end Inventory
